import Mathlib

/-!
Shallow embedding of the jellyfin-media-organizer core (TypeScript sources
`src/server/routes.ts`, `src/server/storage.ts` = `MemStorage`, shared
`schema.ts`) in Lean 4, together with theorems settling the frozen claims
about the natural-language specification.

Strings are modelled as `List Char`.  JavaScript regular-expression
behaviour (leftmost match, lazy quantifiers, ASCII word boundaries,
`.` not matching line terminators, `\s` whitespace classes) is translated
into explicit recursive scanners.  JavaScript `Math.round`/`Math.ceil` on
the small rational values appearing in the code are modelled by exact
rational rounding on `Nat` (the float computations agree with the exact
values at every feasible input size).
-/

set_option maxRecDepth 400000

namespace JMO

abbrev Str := List Char

/-- ASCII lower-casing, the canonicalisation JS applies for the `i` regex
flag and `toLowerCase` on the ASCII letters used throughout the source. -/
def jsLower (c : Char) : Char :=
  if 'A' ≤ c ∧ c ≤ 'Z' then Char.ofNat (c.toNat + 32) else c

/-- `[a-zA-Z0-9]`, the character class of the extension regex. -/
def isAsciiAlnum (c : Char) : Bool :=
  ('a' ≤ c ∧ c ≤ 'z') ∨ ('A' ≤ c ∧ c ≤ 'Z') ∨ ('0' ≤ c ∧ c ≤ '9')

/-- `\d` -/
def isDigitC (c : Char) : Bool := '0' ≤ c ∧ c ≤ '9'

/-- `\w`, the ASCII word characters deciding a JS `\b` boundary. -/
def isWordChar (c : Char) : Bool := isAsciiAlnum c ∨ c = '_'

/-- JS `\s` (WhiteSpace ∪ LineTerminator), as used by `\s+` and `trim()`. -/
def isJsWs (c : Char) : Bool :=
  c.toNat = 0x20 ∨ c.toNat = 0x09 ∨ c.toNat = 0x0a ∨ c.toNat = 0x0b ∨
  c.toNat = 0x0c ∨ c.toNat = 0x0d ∨ c.toNat = 0xa0 ∨ c.toNat = 0x1680 ∨
  (0x2000 ≤ c.toNat ∧ c.toNat ≤ 0x200a) ∨ c.toNat = 0x2028 ∨ c.toNat = 0x2029 ∨
  c.toNat = 0x202f ∨ c.toNat = 0x205f ∨ c.toNat = 0x3000 ∨ c.toNat = 0xfeff

/-- JS line terminators, which `.` never matches. -/
def isLineTerm (c : Char) : Bool :=
  c.toNat = 0x0a ∨ c.toNat = 0x0d ∨ c.toNat = 0x2028 ∨ c.toNat = 0x2029

/-- `RELEASE_GROUPS` from `shared/schema.ts`, lower-case as in the source. -/
def RELEASE_GROUPS : List Str :=
  ([ "hdhub4u", "yts", "rarbg", "1337x", "yify", "ettv", "eztv", "lol", "dimension",
    "fgt", "sparks", "axxo", "fxg", "batv", "ntb", "mkvcage", "pahe", "psa",
    "tamilrockers", "filmyzilla", "movierulz", "khatrimaza", "bolly4u", "worldfree4u",
    "filmywap", "mp4moviez", "9xmovies", "downloadhub", "cinevood", "katmoviehd",
    "moviesverse", "vegamovies", "ssrmovies", "themoviesflix", "hubflix", "filmyhit",
    "extramovies", "moviesbaba", "skymovieshd", "movieswood", "jalshamoviez",
    "hdtv", "webrip", "bluray", "brrip", "dvdrip", "web-dl", "webdl", "hdrip",
    "hdcam", "camrip", "cam", "ts", "telesync", "dvdscr", "screener", "r5",
    "720p", "1080p", "2160p", "4k", "uhd", "hd", "sd", "480p", "360p",
    "hdr", "hdr10", "dolby", "atmos", "truehd", "dts-hd", "dts-x",
    "x264", "x265", "hevc", "h264", "h265", "aac", "ac3", "dts", "mp3",
    "avc", "xvid", "divx", "mpeg", "vp9", "av1", "10bit", "8bit",
    "hindi", "english", "dual", "audio", "dubbed", "multi", "org",
    "esub", "esubs", "subs", "subtitle", "subtitles", "hardsub", "softsub",
    "tam", "tel", "kan", "mal", "ben", "mar", "guj", "pun",
    "extended", "unrated", "directors", "cut", "remastered", "imax",
    "proper", "real", "rerip", "repack", "internal", "limited",
    "telegram", "channel", "group", "rip", "print", "clean",
    "amzn", "nf", "hulu", "dsnp", "atvp", "hmax", "zee5", "hotstar" ] :
    List String).map String.toList

/-! ### `cleanFilename` (routes.ts lines 13–32 and MemStorage, identical) -/

/-- Step 1 of `cleanFilename`: strip a trailing extension matching
`\.[a-zA-Z0-9]{2,4}$` (the only possible match of that anchored regex is
at the last dot, with a 2–4 character all-alphanumeric tail). -/
def stripExt (s : Str) : Str :=
  let rev := s.reverse
  let run := rev.takeWhile isAsciiAlnum
  if 2 ≤ run.length ∧ run.length ≤ 4 ∧ rev.get? run.length = some '.' then
    (rev.drop (run.length + 1)).reverse
  else s

/-- Step 2: `replace(/[._]/g, " ")`. -/
def dotsToSpaces (s : Str) : Str :=
  s.map (fun c => if c = '.' ∨ c = '_' then ' ' else c)

/-- Helper for the lazy bracket regex `\[.*?\]`: split the input before the
first `]` reachable without crossing a line terminator (JS `.` does not
match line terminators). -/
def splitAtRB : Str → Option (Str × Str)
  | [] => none
  | c :: t =>
    if c = ']' then some ([], t)
    else if isLineTerm c then none
    else match splitAtRB t with
      | some (m, r) => some (c :: m, r)
      | none => none

theorem splitAtRB_length : ∀ {t m r : Str}, splitAtRB t = some (m, r) →
    t.length = m.length + r.length + 1 := by
  intro t
  induction t with
  | nil => intro m r h; simp [splitAtRB] at h
  | cons c t ih =>
    intro m r h
    by_cases hc : c = ']'
    · simp [splitAtRB, hc] at h
      simp [← h.1, ← h.2]
    · by_cases hl : isLineTerm c
      · simp [splitAtRB, hc, hl] at h
      · simp [splitAtRB, hc, hl] at h
        cases hsp : splitAtRB t with
        | none => simp [hsp] at h
        | some p =>
          simp [hsp] at h
          have := ih (m := p.1) (r := p.2) (by simp [hsp])
          simp [← h.1, ← h.2, this]
          omega

/-- Step 3: `replace(/\[.*?\]/g, " ")`, a left-to-right scan; after a
replacement the scan resumes after the consumed `]`.  Structural recursion
on a fuel that bounds the input length (every recursive call strictly
shortens the string, so `fuel = s.length` never runs out). -/
def removeBracketsF : Nat → Str → Str
  | 0, s => s
  | _ + 1, [] => []
  | fuel + 1, c :: t =>
    if c = '[' then
      match splitAtRB t with
      | some (_, r) => ' ' :: removeBracketsF fuel r
      | none => '[' :: removeBracketsF fuel t
    else c :: removeBracketsF fuel t

def removeBrackets (s : Str) : Str := removeBracketsF s.length s

/-- The negative lookahead `(?!(?:19|20)\d{2}\))`: `isYearOpen t` holds
exactly when the lookahead pattern succeeds just after a `(`. -/
def isYearOpen : Str → Bool
  | a :: b :: c :: d :: e :: _ =>
    ((a = '1' ∧ b = '9') ∨ (a = '2' ∧ b = '0')) ∧ isDigitC c ∧ isDigitC d ∧ e = ')'
  | _ => false

/-- Helper for `[^)]*\)`: split the input before the first `)`. -/
def splitAtRP : Str → Option (Str × Str)
  | [] => none
  | c :: t =>
    if c = ')' then some ([], t)
    else match splitAtRP t with
      | some (m, r) => some (c :: m, r)
      | none => none

theorem splitAtRP_length : ∀ {t m r : Str}, splitAtRP t = some (m, r) →
    t.length = m.length + r.length + 1 := by
  intro t
  induction t with
  | nil => intro m r h; simp [splitAtRP] at h
  | cons c t ih =>
    intro m r h
    by_cases hc : c = ')'
    · simp [splitAtRP, hc] at h
      simp [← h.1, ← h.2]
    · simp [splitAtRP, hc] at h
      cases hsp : splitAtRP t with
      | none => simp [hsp] at h
      | some p =>
        simp [hsp] at h
        have := ih (m := p.1) (r := p.2) (by simp [hsp])
        simp [← h.1, ← h.2, this]
        omega

/-- Step 4: `replace(/\((?!(?:19|20)\d{2}\))[^)]*\)/g, " ")`: a paren whose
lookahead sees a year followed by `)` is skipped, otherwise everything up
to the first `)` is replaced by a space. -/
def removeParensF : Nat → Str → Str
  | 0, s => s
  | _ + 1, [] => []
  | fuel + 1, c :: t =>
    if c = '(' then
      if isYearOpen t then '(' :: removeParensF fuel t
      else match splitAtRP t with
        | some (_, r) => ' ' :: removeParensF fuel r
        | none => '(' :: removeParensF fuel t
    else c :: removeParensF fuel t

def removeParens (s : Str) : Str := removeParensF s.length s

/-- Case-insensitive literal match of a (lower-case) pattern at the head of
the input, per the JS `i` flag (ASCII canonicalisation). -/
def matchesAt : Str → Str → Bool
  | [], _ => true
  | _ :: _, [] => false
  | gc :: gt, sc :: st => jsLower sc = gc ∧ matchesAt gt st

/-- `\b` before a position: previous character absent or not a word char. -/
def boundaryB : Option Char → Bool
  | none => true
  | some c => ¬ isWordChar c

/-- `\b` after a match: next character absent or not a word char. -/
def headNonWord : Str → Bool
  | [] => true
  | c :: _ => ¬ isWordChar c

/-- One pass of `replace(new RegExp("\\b" + g + "\\b", "gi"), " ")`:
scan left to right keeping the character preceding the scan position (the
word-boundary context is always evaluated against the input string). -/
def replGF (g : Str) : Nat → Option Char → Str → Str
  | 0, _, s => s
  | _ + 1, _, [] => []
  | fuel + 1, prev, c :: t =>
    if 0 < g.length ∧ boundaryB prev ∧ matchesAt g (c :: t) ∧
        headNonWord ((c :: t).drop g.length) then
      ' ' :: replGF g fuel (((c :: t).take g.length).getLast?) ((c :: t).drop g.length)
    else c :: replGF g fuel (some c) t

def replG (g : Str) (prev : Option Char) (s : Str) : Str := replGF g s.length prev s

/-- Step 5: remove every `RELEASE_GROUPS` entry as a word-bounded
case-insensitive match. -/
def removeGroups (s : Str) : Str :=
  RELEASE_GROUPS.foldl (fun acc g => replG g none acc) s

theorem length_dropWhile_le (p : Char → Bool) (l : Str) :
    (l.dropWhile p).length ≤ l.length := by
  induction l with
  | nil => simp [List.dropWhile]
  | cons c t ih =>
    by_cases h : p c <;> simp [List.dropWhile, h] <;> omega

/-- Step 6: `replace(/\s+/g, " ")`. -/
def collapseWsF : Nat → Str → Str
  | 0, s => s
  | _ + 1, [] => []
  | fuel + 1, c :: t =>
    if isJsWs c then ' ' :: collapseWsF fuel (t.dropWhile isJsWs)
    else c :: collapseWsF fuel t

def collapseWs (s : Str) : Str := collapseWsF s.length s

/-- Step 7: `trim()`. -/
def trimWs (s : Str) : Str :=
  ((s.dropWhile isJsWs).reverse.dropWhile isJsWs).reverse

/-- `cleanFilename` (routes.ts 13–32 / MemStorage 79–98). -/
def cleanFilename (s : Str) : Str :=
  trimWs (collapseWs (removeGroups (removeParens (removeBrackets (dotsToSpaces (stripExt s))))))


/-! ### Similarity and duplicate detection (`MemStorage`, storage.ts) -/

/-- `normalizeForComparison` (storage.ts 101–106): clean, lower-case, strip
everything outside `[a-z0-9]`, trim.  ASCII case mapping. -/
def normalizeForComparison (s : Str) : Str :=
  trimWs (((cleanFilename s).map jsLower).filter
    (fun c => ('a' ≤ c ∧ c ≤ 'z') ∨ ('0' ≤ c ∧ c ≤ '9')))

/-- `a.startsWith(b)` on raw character lists. -/
def startsWithSub : Str → Str → Bool
  | _, [] => true
  | [], _ :: _ => false
  | c :: t, d :: u => c = d ∧ startsWithSub t u

/-- `a.includes(b)`: contiguous-substring test. -/
def containsSub : Str → Str → Bool
  | [], sub => sub.isEmpty
  | c :: t, sub => startsWithSub (c :: t) sub || containsSub t sub

/-- `Math.round((a / b) * 100)` for naturals `a ≤ b`, `b > 0`, as exact
rational rounding (round half towards `+∞`). -/
def jsRoundRatio100 (a b : Nat) : Nat := (200 * a + b) / (2 * b)

/-- The Levenshtein DP matrix of storage.ts 122–141: `levM s1 s2 i j` is
`matrix[i][j]` (edit distance of the length-`i` and length-`j` prefixes).
Structural recursion on a fuel bounding `i + j`. -/
def levMF (s1 s2 : Str) : Nat → Nat → Nat → Nat
  | _, 0, j => j
  | _, i + 1, 0 => i + 1
  | 0, _ + 1, _ + 1 => 0
  | fuel + 1, i + 1, j + 1 =>
    let cost : Nat := if s1.get? i = s2.get? j then 0 else 1
    min (min (levMF s1 s2 fuel i (j + 1) + 1) (levMF s1 s2 fuel (i + 1) j + 1))
      (levMF s1 s2 fuel i j + cost)

def levM (s1 s2 : Str) (i j : Nat) : Nat := levMF s1 s2 (i + j) i j

/-- `calculateSimilarity` (storage.ts 109–146). -/
def calculateSimilarity (str1 str2 : Str) : Nat :=
  let s1 := normalizeForComparison str1
  let s2 := normalizeForComparison str2
  if s1 = s2 then 100
  else if s1.length = 0 ∨ s2.length = 0 then 0
  else if containsSub s1 s2 || containsSub s2 s1 then
    jsRoundRatio100 (min s1.length s2.length) (max s1.length s2.length)
  else
    jsRoundRatio100 (max s1.length s2.length - levM s1 s2 s1.length s2.length)
      (max s1.length s2.length)

/-- A catalog row as consumed by `findDuplicates` (id plus raw filename). -/
structure MediaLite where
  id : Nat
  originalFilename : Str
deriving Repr, DecidableEq

/-- A member of a duplicate group (storage.ts `DuplicateItem`; the optional
`fileSize` display field is omitted). -/
structure DupEntry where
  id : Nat
  originalFilename : Str
  cleanedName : Str
  similarity : Nat
  isOriginal : Bool
deriving Repr, DecidableEq

/-- A duplicate group (storage.ts `DuplicateGroup`; `groupId`, a fresh
`randomUUID`, is omitted from the model). -/
structure DuplicateGroup where
  baseName : Str
  items : List DupEntry
deriving Repr, DecidableEq

/-- `Map.set` of a JS `Map`: replace in place if the key exists, else append
(insertion order is preserved by JS `Map` iteration). -/
def jsMapSet (m : List (Str × List DupEntry)) (k : Str) (v : List DupEntry) :
    List (Str × List DupEntry) :=
  match m with
  | [] => [(k, v)]
  | (k0, v0) :: t => if k0 = k then (k, v) :: t else (k0, v0) :: jsMapSet t k v

/-- The inner `for (const [groupKey, groupItems] of groups)` loop of
`findDuplicates`: join the first group whose founding member scores at or
above the threshold.  (A group with an empty member list cannot arise; the
source would crash on `groupItems[0]`, the model skips it.) -/
def tryJoin (threshold : Nat) (item : MediaLite) (cleaned : Str) :
    List (Str × List DupEntry) → Option (List (Str × List DupEntry))
  | [] => none
  | (k, grp) :: t =>
    match grp with
    | [] => (tryJoin threshold item cleaned t).map (fun r => (k, grp) :: r)
    | g0 :: _ =>
      let sim := calculateSimilarity item.originalFilename g0.originalFilename
      if threshold ≤ sim then
        some ((k, grp ++ [⟨item.id, item.originalFilename, cleaned, sim, false⟩]) :: t)
      else (tryJoin threshold item cleaned t).map (fun r => (k, grp) :: r)

/-- One iteration of the outer `for (const item of items)` loop of
`findDuplicates`. -/
def stepItem (threshold : Nat) (groups : List (Str × List DupEntry))
    (item : MediaLite) : List (Str × List DupEntry) :=
  let cleaned := cleanFilename item.originalFilename
  match tryJoin threshold item cleaned groups with
  | some gs => gs
  | none =>
    jsMapSet groups (normalizeForComparison item.originalFilename)
      [⟨item.id, item.originalFilename, cleaned, 100, true⟩]

/-- `MemStorage.findDuplicates` (storage.ts 355–420) over an explicit item
list (the source iterates `getAllMediaItems()`, the catalog in
newest-first order). -/
def findDuplicates (items : List MediaLite) (threshold : Nat) :
    List DuplicateGroup :=
  ((items.foldl (stepItem threshold) []).filter (fun kv => 1 < kv.2.length)).map
    (fun kv => ⟨(match kv.2 with | e :: _ => e.cleanedName | [] => []), kv.2⟩)

/-! ### Tokeniser and series-name extraction (routes.ts 172–338) -/

/-- `QUALITY_TAGS` (routes.ts 183–197), lower-case as in the source. -/
def QUALITY_TAGS : List Str :=
  ([ "720p", "1080p", "2160p", "4k", "hdtv", "web", "webrip", "webdl", "web-dl",
    "bluray", "brrip", "bdrip", "dvdrip", "hdrip", "hdtvrip",
    "x264", "x265", "hevc", "h264", "h265", "avc",
    "aac", "ac3", "dts", "ddp", "ddp5", "dd5", "ddp51", "atmos", "truehd",
    "proper", "repack", "internal", "readnfo", "extended", "uncut", "unrated",
    "10bit", "8bit", "hdr", "hdr10", "sdr", "dv", "dolby", "vision",
    "amzn", "nf", "hmax", "dsnp", "atvp", "pcok", "hulu", "max",
    "telly", "yts", "rarbg", "eztv", "ettv", "lol", "dimension", "sparks",
    "ntg", "ntb", "flux", "phoenix", "ggez", "ggwp", "cakes", "gossip",
    "glhf", "cmrg", "sigma", "mkvcage", "pahe", "psa", "tepes",
    "successors", "hone", "evo", "fgt", "yify", "galactica", "memento",
    "syncopy", "nogrp", "ion10", "playwave", "frds", "npms", "deejayahmed" ] :
    List String).map String.toList

/-- Maximal runs of non-separator characters (`split(/\s+/)` followed by
the non-empty filter of `tokenizeFilename`). -/
def wordsByF (p : Char → Bool) : Nat → Str → List Str
  | 0, _ => []
  | _ + 1, [] => []
  | fuel + 1, c :: t =>
    if p c then wordsByF p fuel t
    else (c :: t.takeWhile (fun x => !p x)) :: wordsByF p fuel (t.dropWhile (fun x => !p x))

def wordsBy (p : Char → Bool) (s : Str) : List Str := wordsByF p s.length s

/-- `tokenizeFilename` (routes.ts 173–180). -/
def tokenizeFilename (filename : Str) : List Str :=
  wordsBy isJsWs
    ((stripExt filename).map
      (fun c => if c ∈ ['.', '_', '-', '[', ']', '(', ')'] then ' ' else c))

/-- `normalizeToken` (routes.ts 200–202). -/
def normalizeToken (token : Str) : Str :=
  (token.map jsLower).filter (fun c => ¬ (c = '.' ∨ c = '-'))

/-- `isQualityTag` (routes.ts 205–208). -/
def isQualityTag (token : Str) : Bool :=
  QUALITY_TAGS.contains (normalizeToken token)

/-- `RELEASE_GROUPS.some(g => lower === g.toLowerCase())`. -/
def isReleaseGroup (token : Str) : Bool :=
  RELEASE_GROUPS.any (fun g => token.map jsLower = g)

/-- `^\d+$` -/
def isNumericStr (t : Str) : Bool := ¬ t.isEmpty ∧ t.all isDigitC

/-- `parseInt` on an all-digit token. -/
def parseIntNat (ds : Str) : Nat :=
  ds.foldl (fun n c => n * 10 + (c.toNat - '0'.toNat)) 0

/-- tail of `^s\d{1,2}e\d{1,3}$/i` after the season digits: `e` then an
all-digit remainder of length 1–3. -/
def eDigitsTailAnchor (r : Str) : Bool :=
  match r with
  | [] => false
  | e :: rest2 =>
    jsLower e = 'e' ∧
    (let d2 := rest2.takeWhile isDigitC
     1 ≤ d2.length ∧ d2.length ≤ 3 ∧ rest2.dropWhile isDigitC = [])

/-- `^s\d{1,2}e\d{1,3}$/i` -/
def isSxxExx (t : Str) : Bool :=
  match t with
  | [] => false
  | c :: rest =>
    jsLower c = 's' ∧
    (let d1 := rest.takeWhile isDigitC
     1 ≤ d1.length ∧ d1.length ≤ 2 ∧ eDigitsTailAnchor (rest.dropWhile isDigitC))

/-- `^s\d{1,2}$/i` -/
def isSxx (t : Str) : Bool :=
  match t with
  | [] => false
  | c :: rest =>
    jsLower c = 's' ∧
    (let d1 := rest.takeWhile isDigitC
     1 ≤ d1.length ∧ d1.length ≤ 2 ∧ rest.dropWhile isDigitC = [])

/-- tail of `^\d{1,2}x\d{1,3}$/i` after the leading digits. -/
def xDigitsTailAnchor (r : Str) : Bool :=
  match r with
  | [] => false
  | x :: rest2 =>
    jsLower x = 'x' ∧
    (let d2 := rest2.takeWhile isDigitC
     1 ≤ d2.length ∧ d2.length ≤ 3 ∧ rest2.dropWhile isDigitC = [])

/-- `^\d{1,2}x\d{1,3}$/i` -/
def isNxN (t : Str) : Bool :=
  let d1 := t.takeWhile isDigitC
  1 ≤ d1.length ∧ d1.length ≤ 2 ∧ xDigitsTailAnchor (t.dropWhile isDigitC)

/-- `^(19|20)\d{2}$` -/
def isYear4 (t : Str) : Bool :=
  match t with
  | [a, b, c, d] => ((a = '1' ∧ b = '9') ∨ (a = '2' ∧ b = '0')) ∧ isDigitC c ∧ isDigitC d
  | _ => false

/-- The token loop of `extractSeriesTokens` (routes.ts 211–245), with the
`hasNonNumericToken` flag threaded explicitly. -/
def extractSeriesTokensGo : Bool → List Str → List Str
  | _, [] => []
  | hasNN, token :: rest =>
    if isSxxExx token then []
    else if isSxx token then []
    else if isNxN token then []
    else if ¬ hasNN ∧ (isQualityTag token ∨ isReleaseGroup token) then
      extractSeriesTokensGo hasNN rest
    else if hasNN ∧ isQualityTag token then []
    else if isYear4 token ∧ hasNN then []
    else if hasNN ∧ isReleaseGroup token then []
    else if isNumericStr token ∧ hasNN ∧ parseIntNat token ≤ 50 then []
    else token :: extractSeriesTokensGo (hasNN ∨ ¬ isNumericStr token) rest

/-- `extractSeriesTokens` (routes.ts 211–245). -/
def extractSeriesTokens (tokens : List Str) : List Str :=
  extractSeriesTokensGo false tokens

/-- All arrays carry a token case-insensitively equal to `tok` at index `i`. -/
def allMatchAt (tok : Str) (arrs : List (List Str)) (i : Nat) : Bool :=
  arrs.all (fun arr =>
    match arr.get? i with
    | some t => t.map jsLower = tok
    | none => false)

/-- The index walk of `longestCommonPrefix` (routes.ts 248–274); the fuel
bounds the remaining indices (`first.length` suffices from index 0). -/
def lcpFromF (first : List Str) (others : List (List Str)) : Nat → Nat → List Str
  | 0, _ => []
  | fuel + 1, i =>
    match first.get? i with
    | some tok =>
      if allMatchAt (tok.map jsLower) others i then
        tok :: lcpFromF first others fuel (i + 1)
      else []
    | none => []

/-- `longestCommonPrefix` (routes.ts 248–274). -/
def longestCommonPrefixT : List (List Str) → List Str
  | [] => []
  | [ta] => ta
  | first :: others => lcpFromF first others first.length 0

/-- `t.charAt(0).toUpperCase() + t.slice(1).toLowerCase()`. -/
def jsUpper (c : Char) : Char :=
  if 'a' ≤ c ∧ c ≤ 'z' then Char.ofNat (c.toNat - 32) else c

def titleToken : Str → Str
  | [] => []
  | c :: t => jsUpper c :: t.map jsLower

/-- `arr.join(" ")`. -/
def joinSp (parts : List Str) : Str := List.intercalate [' '] parts

/-- `extractSeriesName` (routes.ts 277–289). -/
def extractSeriesName (filename : Str) : Str :=
  let seriesTokens := extractSeriesTokens (tokenizeFilename filename)
  if 0 < seriesTokens.length then joinSp (seriesTokens.map titleToken)
  else cleanFilename filename

/-- Positional case-insensitive match of the common token run against one
sibling's tokens (the inner guard loop of `findSeriesNameByConsensus`). -/
def prefMatches : List Str → List Str → Bool
  | [], _ => true
  | _ :: _, [] => false
  | c :: cr, t :: tr => t.map jsLower = c.map jsLower ∧ prefMatches cr tr

/-- `Math.ceil(n * 0.7)`; exact rational ceiling — the double computation
agrees with `⌈7n/10⌉` at every feasible sibling count. -/
def jsCeil07 (n : Nat) : Nat := (7 * n + 9) / 10

/-- The per-sibling token extraction of `findSeriesNameByConsensus`, with
files whose extraction is empty filtered out. -/
def consensusTokenArrays (filenames : List Str) : List (List Str) :=
  (filenames.map (fun f => extractSeriesTokens (tokenizeFilename f))).filter
    (fun t => 0 < t.length)

/-- The number of sibling token arrays that match the common token run
positionally (case-insensitively). -/
def consensusMatchCount (tokenArrays : List (List Str)) (common : List Str) : Nat :=
  (tokenArrays.filter (prefMatches common)).length

/-- The rendered consensus series name: every non-numeric token
title-cased, numeric tokens kept verbatim, joined by single spaces. -/
def consensusRender (common : List Str) : Str :=
  joinSp (common.map (fun t => if isNumericStr t then t else titleToken t))

/-- `findSeriesNameByConsensus` (routes.ts 293–338). -/
def findSeriesNameByConsensus (filenames : List Str) : Option Str :=
  if filenames.length < 2 then none
  else
    let tokenArrays := consensusTokenArrays filenames
    if tokenArrays.length < 2 then none
    else
      let common := longestCommonPrefixT tokenArrays
      if common.length < 2 then none
      else if (common.filter (fun t => ¬ isNumericStr t)).length < 1 then none
      else if consensusMatchCount tokenArrays common < jsCeil07 tokenArrays.length then none
      else if (consensusRender common).length < 3 then none
      else some (consensusRender common)


/-! ### Classifier (routes.ts 134–170, 340–389) -/

/-- `getExtension` (routes.ts 167–170): the matched `.`+2–4 alphanumerics,
lower-cased, or the empty string. -/
def getExtension (filename : Str) : Str :=
  let rev := filename.reverse
  let run := rev.takeWhile isAsciiAlnum
  if 2 ≤ run.length ∧ run.length ≤ 4 ∧ rev.get? run.length = some '.' then
    ('.' :: run.reverse).map jsLower
  else []

/-- A 4-character window matching `(19[5-9]\d|20[0-2]\d)`. -/
def yearWindow : Str → Option Nat
  | a :: b :: c :: d :: _ =>
    if a = '1' ∧ b = '9' ∧ '5' ≤ c ∧ c ≤ '9' ∧ isDigitC d then
      some (parseIntNat [a, b, c, d])
    else if a = '2' ∧ b = '0' ∧ '0' ≤ c ∧ c ≤ '2' ∧ isDigitC d then
      some (parseIntNat [a, b, c, d])
    else none
  | _ => none

/-- `extractYear` (routes.ts 134–140): leftmost match of
`\(?(19[5-9]\d|20[0-2]\d)\)?`; the optional parens never change the
captured year, so this is the first matching digit window. -/
def extractYear : Str → Option Nat
  | [] => none
  | c :: t =>
    match yearWindow (c :: t) with
    | some y => some y
    | none => extractYear t

/-- `(\d{1,3})` with no trailing constraint: the greedy match takes at most
three characters of the leading digit run (and needs at least one). -/
def epiDigits (r : Str) : Option Nat :=
  let run := r.takeWhile isDigitC
  if run.length = 0 then none else some (parseIntNat (run.take 3))

/-- `(\d{1,2})` followed by a one-character marker class and `(\d{1,3})`:
greedy two-digit attempt first, then the one-digit backtrack. -/
def groupThen (isMark : Char → Bool) : Str → Option (Nat × Nat)
  | [] => none
  | d1 :: tail1 =>
    if isDigitC d1 then
      (match tail1 with
       | d2 :: e :: r3 =>
         if isDigitC d2 ∧ isMark e then
           (epiDigits r3).map (fun ep => (parseIntNat [d1, d2], ep))
         else none
       | _ => none) <|>
      (match tail1 with
       | e :: r2 =>
         if isMark e then (epiDigits r2).map (fun ep => (parseIntNat [d1], ep))
         else none
       | [] => none)
    else none

/-- Leftmost match of `[Ss](\d{1,2})[Ee](\d{1,3})`. -/
def detectP1 : Str → Option (Nat × Nat)
  | [] => none
  | c :: t =>
    (if c = 'S' ∨ c = 's' then groupThen (fun e => e = 'E' ∨ e = 'e') t else none) <|>
    detectP1 t

/-- Leftmost match of `(\d{1,2})[xX](\d{1,3})`. -/
def detectP2 : Str → Option (Nat × Nat)
  | [] => none
  | c :: t => groupThen (fun x => x = 'X' ∨ x = 'x') (c :: t) <|> detectP2 t

/-- After `season\s*(\d{1,2})` digits: `\s*episode\s*(\d{1,3})`. -/
def afterSeasonDigits (ds : Str) (r : Str) : Option (Nat × Nat) :=
  let r1 := r.dropWhile isJsWs
  if matchesAt ("episode".toList) r1 then
    let r2 := (r1.drop 7).dropWhile isJsWs
    let run := r2.takeWhile isDigitC
    if run.length = 0 then none else some (parseIntNat ds, parseIntNat (run.take 3))
  else none

/-- Attempt of `[Ss]eason\s*(\d{1,2})\s*[Ee]pisode\s*(\d{1,3})/i` at one
position. -/
def detectP3At (s : Str) : Option (Nat × Nat) :=
  if matchesAt ("season".toList) s then
    match (s.drop 6).dropWhile isJsWs with
    | d1 :: t1 =>
      if isDigitC d1 then
        (match t1 with
         | d2 :: t2 =>
           if isDigitC d2 then afterSeasonDigits [d1, d2] t2 else none
         | [] => none) <|> afterSeasonDigits [d1] t1
      else none
    | [] => none
  else none

/-- Leftmost match of `[Ss]eason\s*(\d{1,2})\s*[Ee]pisode\s*(\d{1,3})/i`. -/
def detectP3 : Str → Option (Nat × Nat)
  | [] => none
  | c :: t => detectP3At (c :: t) <|> detectP3 t

/-- After the season digits of `[Ss](\d{1,2})\s+[Ee](\d{1,3})`: at least
one whitespace character, then `e` and the episode digits. -/
def afterWsE (ds : Str) (r : Str) : Option (Nat × Nat) :=
  match r with
  | w :: _ =>
    if isJsWs w then
      match r.dropWhile isJsWs with
      | e :: r3 =>
        if e = 'E' ∨ e = 'e' then (epiDigits r3).map (fun ep => (parseIntNat ds, ep))
        else none
      | [] => none
    else none
  | [] => none

/-- `(\d{1,2})\s+[Ee](\d{1,3})` after the `s`. -/
def seasonWsE : Str → Option (Nat × Nat)
  | [] => none
  | d1 :: t1 =>
    if isDigitC d1 then
      (match t1 with
       | d2 :: t2 => if isDigitC d2 then afterWsE [d1, d2] t2 else none
       | [] => none) <|> afterWsE [d1] t1
    else none

/-- Leftmost match of `[Ss](\d{1,2})\s+[Ee](\d{1,3})`. -/
def detectP4 : Str → Option (Nat × Nat)
  | [] => none
  | c :: t => (if c = 'S' ∨ c = 's' then seasonWsE t else none) <|> detectP4 t

/-- `(\d{1,3})(?!\d)`: the full leading digit run, of length 1–3. -/
def epTail (r : Str) : Option Nat :=
  let run := r.takeWhile isDigitC
  if 1 ≤ run.length ∧ run.length ≤ 3 then some (parseIntNat run) else none

/-- Attempt of `[Ee][Pp]?(\d{1,3})(?!\d)` at one position (the optional
`p` is tried greedily first). -/
def detectP5At : Str → Option Nat
  | [] => none
  | c :: t =>
    if c = 'E' ∨ c = 'e' then
      (match t with
       | p :: t2 => if p = 'P' ∨ p = 'p' then epTail t2 else none
       | [] => none) <|> epTail t
    else none

/-- Leftmost match of `[Ee][Pp]?(\d{1,3})(?!\d)`. -/
def detectP5 : Str → Option Nat
  | [] => none
  | c :: t => detectP5At (c :: t) <|> detectP5 t

/-- `detectTVShowPattern` (routes.ts 142–165): the five patterns in source
order, first match wins; the single-capture fallback assumes season 1. -/
def detectTVShowPattern (filename : Str) : Option (Nat × Nat) :=
  match detectP1 filename with
  | some r => some r
  | none =>
    match detectP2 filename with
    | some r => some r
    | none =>
      match detectP3 filename with
      | some r => some r
      | none =>
        match detectP4 filename with
        | some r => some r
        | none => (detectP5 filename).map (fun ep => (1, ep))

/-- `MediaType` (schema.ts). -/
inductive MediaType
  | movie
  | tvshow
  | unknown
deriving Repr, DecidableEq

/-- The record returned by `parseMediaFilename` (routes.ts 340–349). -/
structure ParsedMedia where
  cleanedName : Str
  detectedType : MediaType
  detectedName : Str
  year : Option Nat
  season : Option Nat
  episode : Option Nat
  extension : Str
  confidence : Nat
deriving Repr, DecidableEq

/-- First index of `sub` in `s` (`String.prototype.indexOf`), `none` when
absent. -/
def indexOfSub (s sub : Str) : Option Nat :=
  if startsWithSub s sub then some 0
  else
    match s with
    | [] => none
    | _ :: t => (indexOfSub t sub).map (· + 1)

/-- Decimal rendering of a natural (`String(year)`). -/
def natDigits (n : Nat) : Str := (Nat.repr n).toList

/-- `parseMediaFilename` (routes.ts 340–389).  The JS `tvPattern?.season ||
null` coerces a season (or episode) captured as `0` to `null`. -/
def parseMediaFilename (filename : Str) : ParsedMedia :=
  let extension := getExtension filename
  let cleanedName := cleanFilename filename
  let year := extractYear filename
  let tvPattern := detectTVShowPattern filename
  let tn : MediaType × Str × Nat :=
    match tvPattern with
    | some _ => (MediaType.tvshow, extractSeriesName filename, 80)
    | none =>
      match year with
      | some y =>
        let dn :=
          match indexOfSub filename (natDigits y) with
          | some i => if 0 < i then cleanFilename (filename.take i) else cleanedName
          | none => cleanedName
        (MediaType.movie, dn, 70)
      | none => (MediaType.unknown, cleanedName, 50)
  let detectedName := tn.2.1
  let confidence :=
    if 3 < detectedName.length ∧ detectedName.length < 100 then tn.2.2 + 10 else tn.2.2
  { cleanedName := cleanedName
    detectedType := tn.1
    detectedName := if detectedName.isEmpty then cleanedName else detectedName
    year := year
    season :=
      match tvPattern with
      | some p => if p.1 = 0 then none else some p.1
      | none => none
    episode :=
      match tvPattern with
      | some p => if p.2 = 0 then none else some p.2
      | none => none
    extension := extension
    confidence := min confidence 100 }

/-! ### Destination path builder (routes.ts 391–433, 640–682) -/

/-- `normalizeSeriesName` (routes.ts 392–397). -/
def normalizeSeriesName (name : Str) : Str :=
  trimWs ((name.map jsLower).filter
    (fun c => ('a' ≤ c ∧ c ≤ 'z') ∨ ('0' ≤ c ∧ c ≤ '9')))

/-- `titleCase`: `str.replace(/\b\w/g, c => c.toUpperCase())`. -/
def titleCaseGo : Option Char → Str → Str
  | _, [] => []
  | prev, c :: t =>
    if isWordChar c ∧ boundaryB prev then jsUpper c :: titleCaseGo (some c) t
    else c :: titleCaseGo (some c) t

def titleCase (s : Str) : Str := titleCaseGo none s

/-- A stored TV-series row as far as the path builder reads it. -/
structure TvSeriesLite where
  name : Str
  year : Option Nat
  folderPath : Option Str
deriving Repr, DecidableEq

/-- ` (YYYY)` -/
def yearSuffix : Option Nat → Str
  | some y => ' ' :: '(' :: (natDigits y ++ [')'])
  | none => []

/-- `getCanonicalSeriesFolder` (routes.ts 400–433), with the stored series
list passed explicitly in place of `storage.getAllTvSeries()`. -/
def getCanonicalSeriesFolder (allSeries : List TvSeriesLite) (detectedName : Str)
    (year : Option Nat) : Str :=
  let normalizedInput := normalizeSeriesName detectedName
  match allSeries.find? (fun series =>
    let ne := normalizeSeriesName series.name
    normalizedInput = ne ∨ containsSub normalizedInput ne ∨
      containsSub ne normalizedInput) with
  | some series =>
    match series.folderPath with
    | some fp => fp
    | none => series.name ++ yearSuffix series.year
  | none => titleCase detectedName ++ yearSuffix year

/-- JS `a || b` on optional year numbers (`0` is falsy). -/
def jsOrN (a b : Option Nat) : Option Nat :=
  match a with
  | some y => if y = 0 then b else some y
  | none => b

/-- `n.toString().padStart(2, "0")`. -/
def pad2 (n : Nat) : Str :=
  let d := natDigits n
  if d.length < 2 then '0' :: d else d

/-- `seriesFolder.replace(/\s*\(\d{4}\)$/, "")`. -/
def stripTrailingYearParen (s : Str) : Str :=
  match s.reverse with
  | ')' :: d4 :: d3 :: d2 :: d1 :: '(' :: rest =>
    if isDigitC d1 ∧ isDigitC d2 ∧ isDigitC d3 ∧ isDigitC d4 then
      (rest.dropWhile isJsWs).reverse
    else s
  | _ => s

/-- `generateDestinationPath` (routes.ts 640–682); `allSeries` stands for
the `storage.getAllTvSeries()` read inside `getCanonicalSeriesFolder`, and
the optional TMDB result is passed as in the source. -/
def generateDestinationPath (parsed : ParsedMedia) (detectedName : Str)
    (basePathMovies basePathTvshows : Str) (tmdbName : Option Str)
    (tmdbYear : Option Nat) (allSeries : List TvSeriesLite) : Str :=
  let canonicalName :=
    match tmdbName with
    | some n => if n.isEmpty then titleCase detectedName else n
    | none => titleCase detectedName
  let canonicalYear := jsOrN tmdbYear parsed.year
  let yearStr :=
    match canonicalYear with
    | some y => if y = 0 then [] else yearSuffix (some y)
    | none => []
  if parsed.detectedType = MediaType.movie then
    basePathMovies ++ ('/' :: (canonicalName ++ yearStr)) ++
      ('/' :: (canonicalName ++ yearStr ++ parsed.extension))
  else if parsed.detectedType = MediaType.tvshow ∧ parsed.season ≠ none ∧
      parsed.episode ≠ none then
    let season := parsed.season.getD 0
    let episode := parsed.episode.getD 0
    let seriesFolder :=
      match tmdbName with
      | some n =>
        if n.isEmpty then getCanonicalSeriesFolder allSeries detectedName parsed.year
        else n ++ yearStr
      | none => getCanonicalSeriesFolder allSeries detectedName parsed.year
    let seasonFolder := "Season ".toList ++ pad2 season
    let episodeStr := 'S' :: (pad2 season ++ ('E' :: pad2 episode))
    let fileName := stripTrailingYearParen seriesFolder ++ (" - ".toList ++ episodeStr ++ parsed.extension)
    basePathTvshows ++ ('/' :: seriesFolder) ++ ('/' :: seasonFolder) ++ ('/' :: fileName)
  else
    basePathMovies ++ "/Unsorted/".toList ++ parsed.cleanedName ++ parsed.extension


/-! ### File-move model (`moveFileToDestination`, routes.ts 436–509)

The filesystem is a finite map from paths to byte sizes.  Directories are
not modelled (`mkdir` always succeeds; `cleanupEmptyFolders` only removes
empty directories and never touches files).  The environment injects the
outcomes of the fallible syscalls: whether `rename` succeeds, fails with
`EXDEV`, or throws otherwise; the size actually written by `copyFile` (or
a thrown error); and whether the `stat`/`unlink` steps fail.  `isDocker`
is modelled as `false`: the `/host` prefixing rewrites both paths
uniformly and does not change any of the claims' observables. -/

structure FS where
  files : List (Str × Nat)
deriving Repr, DecidableEq

def FS.lookup (fs : FS) (p : Str) : Option Nat :=
  (fs.files.find? (fun kv => kv.1 = p)).map (·.2)

def FS.insert (fs : FS) (p : Str) (n : Nat) : FS :=
  ⟨(p, n) :: fs.files⟩

def FS.erase (fs : FS) (p : Str) : FS :=
  ⟨fs.files.filter (fun kv => ¬ kv.1 = p)⟩

inductive RenameOutcome
  | ok
  | exdev
  | err (msg : Str)
deriving Repr, DecidableEq

structure MoveEnv where
  rename : RenameOutcome
  /-- `some n`: `copyFile` returns and the destination holds `n` bytes;
  `none`: `copyFile` throws (message below), caught by the outer handler. -/
  copyOutcome : Option Nat
  copyErrMsg : Str
  statDestFails : Bool
  unlinkDestFails : Bool
  unlinkSourceFails : Bool
  unlinkSourceErrMsg : Str
deriving Repr, DecidableEq

structure MoveResult where
  success : Bool
  error : Option Str
deriving Repr, DecidableEq

/-- `moveFileToDestination` (routes.ts 436–509). -/
def moveFileToDestination (env : MoveEnv) (fs : FS) (src dst : Str) :
    MoveResult × FS :=
  match fs.lookup src with
  | none => (⟨false, some ("Source file not found: ".toList ++ src)⟩, fs)
  | some srcSize =>
    match fs.lookup dst with
    | some _ => (⟨false, some ("Destination already exists: ".toList ++ dst)⟩, fs)
    | none =>
      match env.rename with
      | .ok => (⟨true, none⟩, (fs.erase src).insert dst srcSize)
      | .err m => (⟨false, some m⟩, fs)
      | .exdev =>
        match env.copyOutcome with
        | none => (⟨false, some env.copyErrMsg⟩, fs)
        | some destSize =>
          let fsC := fs.insert dst destSize
          if env.statDestFails then
            (⟨false, some "Copy verification failed: destination not accessible".toList⟩, fsC)
          else if destSize ≠ srcSize then
            (⟨false, some ("Copy verification failed: size mismatch (source: ".toList ++
                natDigits srcSize ++ ", dest: ".toList ++ natDigits destSize ++ [')'])⟩,
             if env.unlinkDestFails then fsC else fsC.erase dst)
          else if env.unlinkSourceFails then
            (⟨false, some env.unlinkSourceErrMsg⟩, fsC)
          else (⟨true, none⟩, fsC.erase src)

/-! ### Organize batch (`POST /api/organize`, routes.ts 1348–1545)

The chunked loop (`CHUNK_SIZE = 10` with a 200 ms inter-chunk delay)
visits the requested ids strictly in order, so it is modelled as a fold.
On a successful move the item row is rewritten (`status: organized`,
`originalPath := destinationPath`); the `Movie`/`TvSeries` aggregate
bookkeeping, the organization logs, and the best-effort empty-directory
cleanup are not modelled — none of them is read by the loop, by the
failure recording, or by the response. -/

structure OrgItem where
  id : Nat
  originalFilename : Str
  originalPath : Option Str
  destinationPath : Option Str
deriving Repr, DecidableEq

structure OrgState where
  itemsDb : List OrgItem
  fs : FS
  organized : List Nat
  failed : List (Nat × Str)
deriving Repr, DecidableEq

def lookupItem (db : List OrgItem) (i : Nat) : Option OrgItem :=
  db.find? (fun it => it.id = i)

def updateItemPath (db : List OrgItem) (i : Nat) (newPath : Str) : List OrgItem :=
  db.map (fun it => if it.id = i then { it with originalPath := some newPath } else it)

/-- One iteration of the per-id loop (`dryRun = false`), with a per-id
move environment. -/
def processId (env : Nat → MoveEnv) (st : OrgState) (i : Nat) : OrgState :=
  match lookupItem st.itemsDb i with
  | none => st
  | some item =>
    match item.originalPath, item.destinationPath with
    | some op, some dp =>
      let r := moveFileToDestination (env i) st.fs op dp
      if r.1.success then
        { st with
          fs := r.2
          itemsDb := updateItemPath st.itemsDb i dp
          organized := st.organized ++ [i] }
      else
        { st with fs := r.2, failed := st.failed ++ [(i, r.1.error.getD [])] }
    | _, _ =>
      { st with failed := st.failed ++ [(i, "Missing source or destination path".toList)] }

def organizeBatch (env : Nat → MoveEnv) (st : OrgState) (ids : List Nat) : OrgState :=
  ids.foldl (processId env) st

/-- One iteration of the per-id loop in dry-run mode: verify the source is
readable and the destination directory writable (the scratch temp-file
write is injected as the `writable` oracle, `none` meaning writable and
`some msg` the caught error message). -/
def processIdDry (writable : Nat → Option Str) (st : OrgState) (i : Nat) : OrgState :=
  match lookupItem st.itemsDb i with
  | none => st
  | some item =>
    match item.originalPath, item.destinationPath with
    | some op, some _ =>
      match st.fs.lookup op with
      | none =>
        { st with failed := st.failed ++ [(i, "Source not found: ".toList ++ op)] }
      | some _ =>
        match writable i with
        | some msg =>
          { st with failed := st.failed ++ [(i, "Destination not writable: ".toList ++ msg)] }
        | none => { st with organized := st.organized ++ [i] }
    | _, _ =>
      { st with failed := st.failed ++ [(i, "Missing source or destination path".toList)] }

def organizeBatchDry (writable : Nat → Option Str) (st : OrgState) (ids : List Nat) :
    OrgState :=
  ids.foldl (processIdDry writable) st

/-! ### Job handlers (`POST /api/scan-folder` routes.ts 1191–1263,
`POST /api/organize-jobs` routes.ts 1548–1722) -/

inductive JobStatus
  | pending
  | running
  | completed
  | failed
deriving Repr, DecidableEq

structure Job where
  id : Nat
  status : JobStatus
deriving Repr, DecidableEq

structure JobStore where
  jobs : List Job
  nextId : Nat
deriving Repr, DecidableEq

/-- Modelled from the spec: `storage.getActiveScanJob` /
`storage.getActiveOrganizeJob` are implemented outside the provided
sources (the shipped `MemStorage` has no job methods).  Per the spec's
job-store contract, a job is *active* while its status is `pending` or
`running`, and the query returns an active job of its kind when one
exists. -/
def getActiveJob (jobs : List Job) : Option Job :=
  jobs.find? (fun j => j.status = JobStatus.pending ∨ j.status = JobStatus.running)

/-- Modelled from the spec: job creation appends a fresh record with the
requested initial status. -/
def createJob (store : JobStore) (status : JobStatus) : Job × JobStore :=
  (⟨store.nextId, status⟩, ⟨store.jobs ++ [⟨store.nextId, status⟩], store.nextId + 1⟩)

/-- The response fields the claims read (body `jobId`/`error`/`message`
plus the HTTP status). -/
structure ApiResponse where
  httpStatus : Nat
  jobId : Option Nat
  error : Option Str
  message : Option Str
deriving Repr, DecidableEq

/-- `POST /api/scan-folder` (routes.ts 1191–1263).  `allPaths` is the
already-parsed, filtered list of configured source folders; the
destination check runs *after* the job has been created, as in the
source. -/
def scanFolderPost (store : JobStore) (allPaths : List Str)
    (moviesDestination tvShowsDestination : Str) : ApiResponse × JobStore :=
  match getActiveJob store.jobs with
  | some activeJob =>
    (⟨200, some activeJob.id, none, some "Scan already in progress".toList⟩, store)
  | none =>
    if allPaths.length = 0 then
      (⟨400, none,
        some "No library folders configured. Please add folders in Settings.".toList,
        none⟩, store)
    else
      let js := createJob store JobStatus.pending
      if moviesDestination.isEmpty ∧ tvShowsDestination.isEmpty then
        (⟨400, none,
          some "Destination paths not configured. Please set 'Movies Destination' and 'TV Shows Destination' in Settings before scanning.".toList,
          none⟩, js.2)
      else
        (⟨200, some js.1.id, none, some "Scan started in background".toList⟩, js.2)

/-- `POST /api/organize-jobs` (routes.ts 1548–1722), up to the point the
response is sent (the background processing itself is `organizeBatch`). -/
def organizeJobsPost (store : JobStore) (ids : List Nat)
    (moviesDestination tvShowsDestination : Str) : ApiResponse × JobStore :=
  if ids.length = 0 then
    (⟨400, none, some "ids must be a non-empty array".toList, none⟩, store)
  else
    match getActiveJob store.jobs with
    | some activeJob =>
      (⟨409, some activeJob.id, some "Organization already in progress".toList, none⟩,
       store)
    | none =>
      if moviesDestination.isEmpty ∧ tvShowsDestination.isEmpty then
        (⟨400, none,
          some "Destination paths not configured. Please set Movies Destination and TV Shows Destination in Settings first.".toList,
          none⟩, store)
      else
        let js := createJob store JobStatus.running
        (⟨200, some js.1.id, none, none⟩, js.2)


/-! ## Theorems settling the claims -/

/-- C5: classifying `"Inception.2010.1080p.BluRay.x264-YTS.mkv"` yields a
movie named `"Inception"`, year 2010, confidence at least 80, and the
destination `Movies/Inception (2010)/Inception (2010).mkv` relative to
the movies base path. -/
theorem inception_scenario :
    (parseMediaFilename "Inception.2010.1080p.BluRay.x264-YTS.mkv".toList).detectedType
      = MediaType.movie ∧
    (parseMediaFilename "Inception.2010.1080p.BluRay.x264-YTS.mkv".toList).detectedName
      = "Inception".toList ∧
    (parseMediaFilename "Inception.2010.1080p.BluRay.x264-YTS.mkv".toList).year
      = some 2010 ∧
    80 ≤ (parseMediaFilename "Inception.2010.1080p.BluRay.x264-YTS.mkv".toList).confidence ∧
    generateDestinationPath
      (parseMediaFilename "Inception.2010.1080p.BluRay.x264-YTS.mkv".toList)
      (parseMediaFilename "Inception.2010.1080p.BluRay.x264-YTS.mkv".toList).detectedName
      "Movies".toList "TV Shows".toList none none [] =
      "Movies/Inception (2010)/Inception (2010).mkv".toList := by
  decide

/-- C7 (failing input): `cleanFilename` is not idempotent at `"[a\nb]"`.
The lazy bracket regex `\[.*?\]` cannot cross the newline, so the first
pass keeps the bracket pair while `\s+ → " "` turns the newline into a
space; the second pass then deletes the whole bracket group. -/
theorem cleanFilename_not_idempotent_newline :
    cleanFilename ("[a\nb]".toList) = "[a b]".toList ∧
    cleanFilename (cleanFilename ("[a\nb]".toList)) = [] ∧
    cleanFilename (cleanFilename ("[a\nb]".toList)) ≠ cleanFilename ("[a\nb]".toList) := by
  decide

/-- C3 (counterexample): on `"S00E01.mkv"` the classifier returns
`season = null` but `episode = 1`: the JS `tvPattern?.season || null`
coerces the captured season `0` to `null`, breaking the both-or-neither
invariant. -/
theorem parse_season_episode_zero_counterexample :
    (parseMediaFilename "S00E01.mkv".toList).season = none ∧
    (parseMediaFilename "S00E01.mkv".toList).episode = some 1 := by
  decide

/-- C3 (amended): `season`/`episode` are both null when no TV pattern
matches and both set when a pattern matches, except when the pattern
captured a zero season or zero episode — then the zero field alone is
coerced to null. -/
theorem parse_season_episode_invariant : ∀ fn : Str,
    ((parseMediaFilename fn).season = none ∧ (parseMediaFilename fn).episode = none) ∨
    ((parseMediaFilename fn).season ≠ none ∧ (parseMediaFilename fn).episode ≠ none) ∨
    (∃ p, detectTVShowPattern fn = some p ∧ (p.1 = 0 ∨ p.2 = 0)) := by
  intro fn
  cases h : detectTVShowPattern fn with
  | none =>
    left
    simp [parseMediaFilename, h]
  | some p =>
    by_cases h1 : p.1 = 0
    · exact Or.inr (Or.inr ⟨p, rfl, Or.inl h1⟩)
    · by_cases h2 : p.2 = 0
      · exact Or.inr (Or.inr ⟨p, rfl, Or.inr h2⟩)
      · refine Or.inr (Or.inl ?_)
        simp [parseMediaFilename, h, h1, h2]

/-- C1 (counterexample): the sibling pair of the Mirzapur scenario is
*rejected* by `findSeriesNameByConsensus` — both files' extraction is the
single token `Mirzapur`, and the function requires a common prefix of at
least two tokens. -/
theorem consensus_mirzapur_rejected :
    findSeriesNameByConsensus
      ["Mirzapur.S01E01.720p.HDHub4u.mkv".toList,
       "Mirzapur HDHub4u S01E02.mkv".toList] = none := by
  decide

/-- C1 (amended): a consensus is accepted exactly when there are at least
two sibling filenames, at least two of them have a non-empty token
extraction, the common token prefix has at least two tokens of which at
least one is non-purely-numeric, at least `⌈0.7 × (number of non-empty
extractions)⌉` of the extractions match the prefix positionally, and the
rendered name is at least 3 characters; the two Mirzapur files are
therefore rejected (single-token prefix), while each file's own
single-file extraction yields `"Mirzapur"`. -/
theorem consensus_acceptance_characterization :
    (∀ fs : List Str,
      (findSeriesNameByConsensus fs).isSome ↔
        (2 ≤ fs.length ∧ 2 ≤ (consensusTokenArrays fs).length ∧
         2 ≤ (longestCommonPrefixT (consensusTokenArrays fs)).length ∧
         1 ≤ ((longestCommonPrefixT (consensusTokenArrays fs)).filter
            (fun t => ¬ isNumericStr t)).length ∧
         jsCeil07 (consensusTokenArrays fs).length ≤
           consensusMatchCount (consensusTokenArrays fs)
             (longestCommonPrefixT (consensusTokenArrays fs)) ∧
         3 ≤ (consensusRender (longestCommonPrefixT (consensusTokenArrays fs))).length)) ∧
    extractSeriesName "Mirzapur.S01E01.720p.HDHub4u.mkv".toList = "Mirzapur".toList ∧
    extractSeriesName "Mirzapur HDHub4u S01E02.mkv".toList = "Mirzapur".toList := by
  refine ⟨fun fs => ?_, by decide, by decide⟩
  simp only [findSeriesNameByConsensus]
  by_cases h1 : fs.length < 2
  · rw [if_pos h1]
    exact iff_of_false (by simp) (fun hc => absurd hc.1 (by omega))
  · rw [if_neg h1]
    by_cases h2 : (consensusTokenArrays fs).length < 2
    · rw [if_pos h2]
      exact iff_of_false (by simp) (fun hc => absurd hc.2.1 (by omega))
    · rw [if_neg h2]
      by_cases h3 : (longestCommonPrefixT (consensusTokenArrays fs)).length < 2
      · rw [if_pos h3]
        exact iff_of_false (by simp) (fun hc => absurd hc.2.2.1 (by omega))
      · rw [if_neg h3]
        by_cases h4 : ((longestCommonPrefixT (consensusTokenArrays fs)).filter
            (fun t => ¬ isNumericStr t)).length < 1
        · rw [if_pos h4]
          exact iff_of_false (by simp) (fun hc => absurd hc.2.2.2.1 (by omega))
        · rw [if_neg h4]
          by_cases h5 : consensusMatchCount (consensusTokenArrays fs)
              (longestCommonPrefixT (consensusTokenArrays fs)) <
              jsCeil07 (consensusTokenArrays fs).length
          · rw [if_pos h5]
            exact iff_of_false (by simp) (fun hc => absurd hc.2.2.2.2.1 (by omega))
          · rw [if_neg h5]
            by_cases h6 : (consensusRender
                (longestCommonPrefixT (consensusTokenArrays fs))).length < 3
            · rw [if_pos h6]
              exact iff_of_false (by simp) (fun hc => absurd hc.2.2.2.2.2 (by omega))
            · rw [if_neg h6]
              exact iff_of_true (by simp)
                ⟨by omega, by omega, by omega, by omega, by omega, by omega⟩


/-- The DP matrix entries never exceed `max i j` (so the JS subtraction
`maxLen - distance` is never negative and the `Nat` model is faithful). -/
theorem levMF_le (s1 s2 : Str) : ∀ fuel i j, levMF s1 s2 fuel i j ≤ max i j := by
  intro fuel
  induction fuel with
  | zero =>
    intro i j
    match i, j with
    | 0, j => simp [levMF]
    | i + 1, 0 => simp [levMF]
    | i + 1, j + 1 => simp [levMF]
  | succ fuel ih =>
    intro i j
    match i, j with
    | 0, j => simp [levMF]
    | i + 1, 0 => simp [levMF]
    | i + 1, j + 1 =>
      have h3 := ih i j
      have hmax : max i j + 1 = max (i + 1) (j + 1) := by omega
      calc levMF s1 s2 (fuel + 1) (i + 1) (j + 1)
          ≤ levMF s1 s2 fuel i j + (if s1.get? i = s2.get? j then 0 else 1) := by
            simp only [levMF]
            exact min_le_right _ _
        _ ≤ max i j + 1 := by
            split <;> omega
        _ = max (i + 1) (j + 1) := hmax

/-- Rounded ratios of `a ≤ b` (with `b > 0`) never exceed 100. -/
theorem jsRoundRatio100_le (a b : Nat) (hab : a ≤ b) (hb : 0 < b) :
    jsRoundRatio100 a b ≤ 100 := by
  unfold jsRoundRatio100
  have : (200 * a + b) / (2 * b) < 101 :=
    Nat.div_lt_of_lt_mul (by omega)
  omega

/-- C10: `calculateSimilarity` always terminates with a value in
`[0, 100]` (it is a total `Nat`-valued function, so non-negativity and
termination are inherent); the Levenshtein distance never exceeds the
longer length; and when exactly one of the two normalized strings is
empty the result is 0. -/
theorem calculateSimilarity_range :
    (∀ x y : Str, calculateSimilarity x y ≤ 100) ∧
    (∀ s1 s2 : Str, levM s1 s2 s1.length s2.length ≤ max s1.length s2.length) ∧
    (∀ x y : Str, normalizeForComparison x = [] → normalizeForComparison y ≠ [] →
      calculateSimilarity x y = 0) ∧
    (∀ x y : Str, normalizeForComparison x ≠ [] → normalizeForComparison y = [] →
      calculateSimilarity x y = 0) := by
  refine ⟨fun x y => ?_, fun s1 s2 => levMF_le s1 s2 _ _ _, fun x y hx hy => ?_,
    fun x y hx hy => ?_⟩
  · unfold calculateSimilarity
    by_cases h1 : normalizeForComparison x = normalizeForComparison y
    · simp [h1]
    · rw [if_neg h1]
      by_cases h2 : (normalizeForComparison x).length = 0 ∨
          (normalizeForComparison y).length = 0
      · rw [if_pos h2]
        omega
      · rw [if_neg h2]
        push_neg at h2
        split
        · exact jsRoundRatio100_le _ _ (by omega) (by omega)
        · exact jsRoundRatio100_le _ _ (by omega) (by omega)
  · unfold calculateSimilarity
    rw [if_neg (by rw [hx]; exact fun h => hy h.symm)]
    rw [if_pos (by simp [hx])]
  · unfold calculateSimilarity
    rw [if_neg (by rw [hy]; exact hx)]
    rw [if_pos (by simp [hy])]

/-- C10 witness: a degenerate filename whose normalization strips every
character scores 0 against a normal one. -/
theorem calculateSimilarity_range_witness :
    calculateSimilarity "-".toList "Show.mkv".toList = 0 ∧
    calculateSimilarity "Show.mkv".toList "-".toList = 0 ∧
    calculateSimilarity "Show.mkv".toList "Show.mkv".toList ≤ 100 :=
  ⟨calculateSimilarity_range.2.2.1 "-".toList "Show.mkv".toList (by decide) (by decide),
   calculateSimilarity_range.2.2.2 "Show.mkv".toList "-".toList (by decide) (by decide),
   calculateSimilarity_range.1 "Show.mkv".toList "Show.mkv".toList⟩

/-- C9: the similarity function returns 100 on identical inputs (the
exact-normalized-match branch), and is symmetric whenever the pair falls
into the exact-match branch or the containment branch. -/
theorem calculateSimilarity_reflexive_symmetric :
    (∀ x : Str, calculateSimilarity x x = 100) ∧
    (∀ x y : Str, normalizeForComparison x = normalizeForComparison y →
      calculateSimilarity x y = calculateSimilarity y x) ∧
    (∀ x y : Str, normalizeForComparison x ≠ normalizeForComparison y →
      (containsSub (normalizeForComparison x) (normalizeForComparison y) = true ∨
       containsSub (normalizeForComparison y) (normalizeForComparison x) = true) →
      calculateSimilarity x y = calculateSimilarity y x) := by
  refine ⟨fun x => by simp [calculateSimilarity], fun x y h => ?_, fun x y hne hc => ?_⟩
  · unfold calculateSimilarity
    rw [if_pos h, if_pos h.symm]
  · unfold calculateSimilarity
    rw [if_neg hne, if_neg (Ne.symm hne)]
    by_cases h2 : (normalizeForComparison x).length = 0 ∨
        (normalizeForComparison y).length = 0
    · rw [if_pos h2, if_pos (Or.symm h2)]
    · rw [if_neg h2, if_neg (fun h => h2 (Or.symm h))]
      have hcon : (containsSub (normalizeForComparison x) (normalizeForComparison y) ||
          containsSub (normalizeForComparison y) (normalizeForComparison x)) = true := by
        rcases hc with h | h <;> simp [h]
      have hcon2 : (containsSub (normalizeForComparison y) (normalizeForComparison x) ||
          containsSub (normalizeForComparison x) (normalizeForComparison y)) = true := by
        rcases hc with h | h <;> simp [h]
      rw [if_pos hcon, if_pos hcon2, Nat.min_comm, Nat.max_comm]

/-- C9 witness: symmetry instances for the exact-match and containment
branches, and reflexivity at a concrete input. -/
theorem calculateSimilarity_reflexive_symmetric_witness :
    calculateSimilarity "Inception".toList "Inception".toList = 100 ∧
    calculateSimilarity "Show.mkv".toList "Show.avi".toList =
      calculateSimilarity "Show.avi".toList "Show.mkv".toList ∧
    calculateSimilarity "Show".toList "Shows".toList =
      calculateSimilarity "Shows".toList "Show".toList :=
  ⟨calculateSimilarity_reflexive_symmetric.1 "Inception".toList,
   calculateSimilarity_reflexive_symmetric.2.1 "Show.mkv".toList "Show.avi".toList
     (by decide),
   calculateSimilarity_reflexive_symmetric.2.2 "Show".toList "Shows".toList
     (by decide) (Or.inr (by decide))⟩


/-- A well-formed duplicate group member list: non-empty, founder first
and flagged original, all joiners flagged non-original. -/
def GoodGrp (g : List DupEntry) : Prop :=
  ∃ e0 t, g = e0 :: t ∧ e0.isOriginal = true ∧ ∀ e ∈ t, e.isOriginal = false

theorem tryJoin_good (threshold : Nat) (item : MediaLite) (cleaned : Str) :
    ∀ (gs r : List (Str × List DupEntry)),
      (∀ kv ∈ gs, GoodGrp kv.2) → tryJoin threshold item cleaned gs = some r →
      ∀ kv ∈ r, GoodGrp kv.2 := by
  intro gs
  induction gs with
  | nil => intro r _ hr; simp [tryJoin] at hr
  | cons hd tl ih =>
    intro r hgood hr
    obtain ⟨k, grp⟩ := hd
    cases grp with
    | nil =>
      have hg := hgood (k, []) (List.mem_cons_self _ _)
      obtain ⟨e0, t0, het, -, -⟩ := hg
      exact absurd het (by simp)
    | cons g0 gt =>
      simp only [tryJoin] at hr
      by_cases hsim :
          threshold ≤ calculateSimilarity item.originalFilename g0.originalFilename
      · rw [if_pos hsim] at hr
        obtain rfl : ((k, (g0 :: gt) ++
            [⟨item.id, item.originalFilename, cleaned,
              calculateSimilarity item.originalFilename g0.originalFilename, false⟩]) :: tl)
            = r := by
          exact Option.some.inj hr
        intro kv hkv
        rcases List.mem_cons.mp hkv with rfl | hmem
        · obtain ⟨e0, t0, het, ho, ht⟩ := hgood (k, g0 :: gt) (List.mem_cons_self _ _)
          obtain ⟨rfl, rfl⟩ : g0 = e0 ∧ gt = t0 := by
            have := List.cons.inj het
            exact ⟨this.1, this.2⟩
          refine ⟨g0, gt ++ [⟨item.id, item.originalFilename, cleaned,
            calculateSimilarity item.originalFilename g0.originalFilename, false⟩],
            ?_, ho, ?_⟩
          · rfl
          intro e he
          rcases List.mem_append.mp he with he | he
          · exact ht e he
          · rcases List.mem_singleton.mp he with rfl
            rfl
        · exact hgood kv (List.mem_cons_of_mem _ hmem)
      · rw [if_neg hsim] at hr
        obtain ⟨r2, hr2, rfl⟩ := Option.map_eq_some'.mp hr
        intro kv hkv
        rcases List.mem_cons.mp hkv with rfl | hmem
        · exact hgood (k, g0 :: gt) (List.mem_cons_self _ _)
        · exact ih r2 (fun kv h => hgood kv (List.mem_cons_of_mem _ h)) hr2 kv hmem

theorem jsMapSet_good :
    ∀ (m : List (Str × List DupEntry)) (k : Str) (v : List DupEntry),
      (∀ kv ∈ m, GoodGrp kv.2) → GoodGrp v → ∀ kv ∈ jsMapSet m k v, GoodGrp kv.2 := by
  intro m
  induction m with
  | nil =>
    intro k v _ hv kv hkv
    simp only [jsMapSet, List.mem_singleton] at hkv
    subst hkv
    exact hv
  | cons hd tl ih =>
    intro k v hgood hv kv hkv
    obtain ⟨k0, v0⟩ := hd
    simp only [jsMapSet] at hkv
    by_cases hk : k0 = k
    · rw [if_pos hk] at hkv
      rcases List.mem_cons.mp hkv with rfl | hmem
      · exact hv
      · exact hgood kv (List.mem_cons_of_mem _ hmem)
    · rw [if_neg hk] at hkv
      rcases List.mem_cons.mp hkv with rfl | hmem
      · exact hgood (k0, v0) (List.mem_cons_self _ _)
      · exact ih k v (fun kv h => hgood kv (List.mem_cons_of_mem _ h)) hv kv hmem

theorem stepItem_good (threshold : Nat) :
    ∀ (gs : List (Str × List DupEntry)) (item : MediaLite),
      (∀ kv ∈ gs, GoodGrp kv.2) → ∀ kv ∈ stepItem threshold gs item, GoodGrp kv.2 := by
  intro gs item hgood kv hkv
  simp only [stepItem] at hkv
  cases hj : tryJoin threshold item (cleanFilename item.originalFilename) gs with
  | some r =>
    rw [hj] at hkv
    exact tryJoin_good threshold item (cleanFilename item.originalFilename) gs r
      hgood hj kv hkv
  | none =>
    rw [hj] at hkv
    refine jsMapSet_good gs _ _ hgood ?_ kv hkv
    exact ⟨_, [], rfl, rfl, by simp⟩

theorem foldl_stepItem_good (threshold : Nat) :
    ∀ (items : List MediaLite) (gs : List (Str × List DupEntry)),
      (∀ kv ∈ gs, GoodGrp kv.2) →
      ∀ kv ∈ items.foldl (stepItem threshold) gs, GoodGrp kv.2 := by
  intro items
  induction items with
  | nil => intro gs h kv hkv; exact h kv hkv
  | cons it tl ih =>
    intro gs h kv hkv
    exact ih (stepItem threshold gs it) (stepItem_good threshold gs it h) kv hkv

/-- C6: every group returned by `findDuplicates` has at least two members;
exactly one member is flagged `isOriginal`, namely the founding (first)
member; and the two files of Scenario D land in one group with exactly
one original. -/
theorem findDuplicates_groups :
    (∀ (items : List MediaLite) (threshold : Nat) (G : DuplicateGroup),
      G ∈ findDuplicates items threshold →
      2 ≤ G.items.length ∧
      G.items.countP (fun e => e.isOriginal) = 1 ∧
      ∃ e0 t, G.items = e0 :: t ∧ e0.isOriginal = true) ∧
    findDuplicates
        [⟨1, "Show.S01E01.mkv".toList⟩, ⟨2, "Show S01E01 HDHub4u.mkv".toList⟩] 80 =
      [⟨"Show S01E01".toList,
        [⟨1, "Show.S01E01.mkv".toList, "Show S01E01".toList, 100, true⟩,
         ⟨2, "Show S01E01 HDHub4u.mkv".toList, "Show S01E01".toList, 100, false⟩]⟩] := by
  constructor
  · intro items threshold G hG
    unfold findDuplicates at hG
    obtain ⟨kv, hkvmem, rfl⟩ := List.mem_map.mp hG
    have hfil := List.mem_filter.mp hkvmem
    have hlen : 1 < kv.2.length := by simpa using hfil.2
    have hgood : GoodGrp kv.2 :=
      foldl_stepItem_good threshold items [] (by simp) kv hfil.1
    obtain ⟨e0, t, hsplit, ho, ht⟩ := hgood
    refine ⟨by simpa using hlen, ?_, e0, t, by simpa using hsplit, ho⟩
    have hct : t.countP (fun e => e.isOriginal) = 0 := by
      refine List.countP_eq_zero.mpr ?_
      intro e he
      simp [ht e he]
    simp [hsplit, List.countP_cons, ho, hct]
  · decide

/-- C6 witness: the general group-shape theorem applied to the concrete
Scenario D group. -/
theorem findDuplicates_groups_witness :
    2 ≤ (DuplicateGroup.mk "Show S01E01".toList
        [⟨1, "Show.S01E01.mkv".toList, "Show S01E01".toList, 100, true⟩,
         ⟨2, "Show S01E01 HDHub4u.mkv".toList, "Show S01E01".toList, 100, false⟩]).items.length ∧
    (DuplicateGroup.mk "Show S01E01".toList
        [⟨1, "Show.S01E01.mkv".toList, "Show S01E01".toList, 100, true⟩,
         ⟨2, "Show S01E01 HDHub4u.mkv".toList, "Show S01E01".toList, 100, false⟩]).items.countP
      (fun e => e.isOriginal) = 1 :=
  have h := findDuplicates_groups.1
    [⟨1, "Show.S01E01.mkv".toList⟩, ⟨2, "Show S01E01 HDHub4u.mkv".toList⟩] 80
    (DuplicateGroup.mk "Show S01E01".toList
        [⟨1, "Show.S01E01.mkv".toList, "Show S01E01".toList, 100, true⟩,
         ⟨2, "Show S01E01 HDHub4u.mkv".toList, "Show S01E01".toList, 100, false⟩])
    (by rw [findDuplicates_groups.2]; exact List.mem_singleton.mpr rfl)
  ⟨h.1, h.2.1⟩


theorem FS.lookup_insert_self (fs : FS) (p : Str) (n : Nat) :
    (fs.insert p n).lookup p = some n := by
  simp only [FS.lookup, FS.insert]
  rw [List.find?_cons_of_pos _ (by simp)]
  rfl

theorem FS.lookup_insert_ne (fs : FS) (p q : Str) (n : Nat) (h : q ≠ p) :
    (fs.insert p n).lookup q = fs.lookup q := by
  simp only [FS.lookup, FS.insert]
  rw [List.find?_cons_of_neg _ (by simp; exact fun hc => h hc.symm)]

theorem FS.lookup_erase_self (fs : FS) (p : Str) :
    (fs.erase p).lookup p = none := by
  simp only [FS.lookup, FS.erase, Option.map_eq_none']
  rw [List.find?_eq_none]
  intro kv hkv
  have := (List.mem_filter.mp hkv).2
  simpa using this

theorem FS.lookup_erase_ne (fs : FS) (p q : Str) (h : q ≠ p) :
    (fs.erase p).lookup q = fs.lookup q := by
  simp only [FS.lookup, FS.erase]
  congr 1
  induction fs.files with
  | nil => rfl
  | cons kv t ih =>
    by_cases hp : kv.1 = p
    · have hq : ¬ kv.1 = q := by rw [hp]; exact fun hc => h hc.symm
      rw [List.filter_cons, if_neg (by simp [hp]),
        List.find?_cons_of_neg _ (by simp [hq]), ih]
    · rw [List.filter_cons, if_pos (by simp [hp])]
      by_cases hq : kv.1 = q
      · rw [List.find?_cons_of_pos _ (by simp [hq]),
          List.find?_cons_of_pos _ (by simp [hq])]
      · rw [List.find?_cons_of_neg _ (by simp [hq]),
          List.find?_cons_of_neg _ (by simp [hq]), ih]

/-- C2: safety of the move operation, over every environment (rename
success, `EXDEV` fallback with any copy outcome, failed verification,
failed unlinks) and every filesystem.  On success the source is gone and
the destination holds exactly the source's original byte size; on failure
the source entry is untouched; and the source can only disappear when the
destination has been verified to hold the source's bytes — never
before. -/
theorem moveFileToDestination_safety :
    ∀ (env : MoveEnv) (fs : FS) (src dst : Str),
      ((moveFileToDestination env fs src dst).1.success = true →
        (moveFileToDestination env fs src dst).2.lookup src = none ∧
        (moveFileToDestination env fs src dst).2.lookup dst = fs.lookup src) ∧
      ((moveFileToDestination env fs src dst).1.success = false →
        (moveFileToDestination env fs src dst).2.lookup src = fs.lookup src) ∧
      ((moveFileToDestination env fs src dst).2.lookup src = none →
        fs.lookup src = none ∨
        (moveFileToDestination env fs src dst).2.lookup dst = fs.lookup src) := by
  intro env fs src dst
  cases hsrc : fs.lookup src with
  | none =>
    have he : moveFileToDestination env fs src dst =
        (⟨false, some ("Source file not found: ".toList ++ src)⟩, fs) := by
      unfold moveFileToDestination
      rw [hsrc]
    rw [he]
    exact ⟨fun h => by simp at h, fun _ => hsrc, fun _ => Or.inl rfl⟩
  | some srcSize =>
    cases hdst : fs.lookup dst with
    | some n =>
      have he : moveFileToDestination env fs src dst =
          (⟨false, some ("Destination already exists: ".toList ++ dst)⟩, fs) := by
        unfold moveFileToDestination
        rw [hsrc, hdst]
      rw [he]
      exact ⟨fun h => by simp at h, fun _ => hsrc,
        fun h => Or.inl (hsrc.symm.trans h)⟩
    | none =>
      have hne : src ≠ dst := fun h => by
        rw [h, hdst] at hsrc
        exact Option.noConfusion hsrc
      cases hren : env.rename with
      | ok =>
        have he : moveFileToDestination env fs src dst =
            (⟨true, none⟩, (fs.erase src).insert dst srcSize) := by
          unfold moveFileToDestination
          rw [hsrc, hdst, hren]
        rw [he]
        have h1 : ((fs.erase src).insert dst srcSize).lookup src = none := by
          rw [FS.lookup_insert_ne _ _ _ _ hne, FS.lookup_erase_self]
        have h2 : ((fs.erase src).insert dst srcSize).lookup dst = some srcSize :=
          FS.lookup_insert_self _ _ _
        exact ⟨fun _ => ⟨h1, h2⟩, fun h => by simp at h, fun _ => Or.inr h2⟩
      | err m =>
        have he : moveFileToDestination env fs src dst = (⟨false, some m⟩, fs) := by
          unfold moveFileToDestination
          rw [hsrc, hdst, hren]
        rw [he]
        exact ⟨fun h => by simp at h, fun _ => hsrc,
          fun h => Or.inl (hsrc.symm.trans h)⟩
      | exdev =>
        cases hcp : env.copyOutcome with
        | none =>
          have he : moveFileToDestination env fs src dst =
              (⟨false, some env.copyErrMsg⟩, fs) := by
            unfold moveFileToDestination
            rw [hsrc, hdst, hren, hcp]
          rw [he]
          exact ⟨fun h => by simp at h, fun _ => hsrc,
            fun h => Or.inl (hsrc.symm.trans h)⟩
        | some destSize =>
          have hlkA : ((fs.insert dst destSize).lookup src) = some srcSize := by
            rw [FS.lookup_insert_ne _ _ _ _ hne, hsrc]
          by_cases hst : env.statDestFails = true
          · have he : moveFileToDestination env fs src dst =
                (⟨false, some "Copy verification failed: destination not accessible".toList⟩,
                 fs.insert dst destSize) := by
              unfold moveFileToDestination
              rw [hsrc, hdst, hren, hcp]
              simp only [if_pos hst]
            rw [he]
            exact ⟨fun h => by simp at h, fun _ => hlkA,
              fun h => absurd (hlkA.symm.trans h) (by simp)⟩
          · by_cases hmm : destSize ≠ srcSize
            · by_cases hud : env.unlinkDestFails = true
              · have he : moveFileToDestination env fs src dst =
                    (⟨false, some ("Copy verification failed: size mismatch (source: ".toList ++
                      natDigits srcSize ++ ", dest: ".toList ++ natDigits destSize ++ [')'])⟩,
                     fs.insert dst destSize) := by
                  unfold moveFileToDestination
                  rw [hsrc, hdst, hren, hcp]
                  simp only [if_neg hst, if_pos hmm, if_pos hud]
                rw [he]
                exact ⟨fun h => by simp at h, fun _ => hlkA,
                  fun h => absurd (hlkA.symm.trans h) (by simp)⟩
              · have he : moveFileToDestination env fs src dst =
                    (⟨false, some ("Copy verification failed: size mismatch (source: ".toList ++
                      natDigits srcSize ++ ", dest: ".toList ++ natDigits destSize ++ [')'])⟩,
                     (fs.insert dst destSize).erase dst) := by
                  unfold moveFileToDestination
                  rw [hsrc, hdst, hren, hcp]
                  simp only [if_neg hst, if_pos hmm, if_neg hud]
                have hlkB : (((fs.insert dst destSize).erase dst).lookup src) = some srcSize := by
                  rw [FS.lookup_erase_ne _ _ _ hne, hlkA]
                rw [he]
                exact ⟨fun h => by simp at h, fun _ => hlkB,
                  fun h => absurd (hlkB.symm.trans h) (by simp)⟩
            · push_neg at hmm
              by_cases hus : env.unlinkSourceFails = true
              · have he : moveFileToDestination env fs src dst =
                    (⟨false, some env.unlinkSourceErrMsg⟩, fs.insert dst destSize) := by
                  unfold moveFileToDestination
                  rw [hsrc, hdst, hren, hcp]
                  simp only [if_neg hst, if_neg (by simp [hmm] : ¬ destSize ≠ srcSize),
                    if_pos hus]
                rw [he]
                exact ⟨fun h => by simp at h, fun _ => hlkA,
                  fun h => absurd (hlkA.symm.trans h) (by simp)⟩
              · have he : moveFileToDestination env fs src dst =
                    (⟨true, none⟩, (fs.insert dst destSize).erase src) := by
                  unfold moveFileToDestination
                  rw [hsrc, hdst, hren, hcp]
                  simp only [if_neg hst, if_neg (by simp [hmm] : ¬ destSize ≠ srcSize),
                    if_neg hus]
                have h1 : (((fs.insert dst destSize).erase src).lookup src) = none :=
                  FS.lookup_erase_self _ _
                have h2 : (((fs.insert dst destSize).erase src).lookup dst) = some srcSize := by
                  rw [FS.lookup_erase_ne _ _ _ (Ne.symm hne), FS.lookup_insert_self, hmm]
                rw [he]
                exact ⟨fun _ => ⟨h1, h2⟩, fun h => by simp at h, fun _ => Or.inr h2⟩

/-- C2 witness: a successful same-filesystem rename moves the 5-byte file,
and a failed cross-device copy (size mismatch) leaves the source in
place. -/
theorem moveFileToDestination_safety_witness :
    ((moveFileToDestination ⟨RenameOutcome.ok, none, [], false, false, false, []⟩
        ⟨[("/in/a.mkv".toList, 5)]⟩ "/in/a.mkv".toList "/out/a.mkv".toList).2.lookup
      "/in/a.mkv".toList = none) ∧
    ((moveFileToDestination ⟨RenameOutcome.ok, none, [], false, false, false, []⟩
        ⟨[("/in/a.mkv".toList, 5)]⟩ "/in/a.mkv".toList "/out/a.mkv".toList).2.lookup
      "/out/a.mkv".toList = some 5) ∧
    ((moveFileToDestination ⟨RenameOutcome.exdev, some 3, [], false, false, false, []⟩
        ⟨[("/in/a.mkv".toList, 5)]⟩ "/in/a.mkv".toList "/out/a.mkv".toList).2.lookup
      "/in/a.mkv".toList = some 5) := by
  have hok := moveFileToDestination_safety
    ⟨RenameOutcome.ok, none, [], false, false, false, []⟩
    ⟨[("/in/a.mkv".toList, 5)]⟩ "/in/a.mkv".toList "/out/a.mkv".toList
  have hex := moveFileToDestination_safety
    ⟨RenameOutcome.exdev, some 3, [], false, false, false, []⟩
    ⟨[("/in/a.mkv".toList, 5)]⟩ "/in/a.mkv".toList "/out/a.mkv".toList
  refine ⟨(hok.1 (by decide)).1, ?_, ?_⟩
  · rw [(hok.1 (by decide)).2]
    decide
  · rw [hex.2.1 (by decide)]
    decide


/-- C4 (counterexample): with an organize job already running, a second
`POST /api/organize-jobs` *is* signalled as an error — HTTP 409 with an
`error` body field — although the active job's id is attached. -/
theorem organizeJobs_conflict_is_error_counterexample :
    let r := (organizeJobsPost ⟨[⟨7, JobStatus.running⟩], 8⟩ [1]
      "/movies".toList "/tv".toList).1
    r.httpStatus = 409 ∧ r.error = some "Organization already in progress".toList ∧
    r.jobId = some 7 := by
  decide

/-- C4 (amended): while a job of the same kind is pending or running, both
start endpoints reject the request rather than queueing it (no job is
created, the store is unchanged) and return the active job's id; for scan
jobs this is a non-error HTTP 200 response with a message, but for
organize jobs it is an HTTP 409 response carrying an `error` field. -/
theorem singleflight_returns_active_job :
    (∀ (store : JobStore) (allPaths : List Str) (md td : Str) (j : Job),
      getActiveJob store.jobs = some j →
      (scanFolderPost store allPaths md td).1 =
        ⟨200, some j.id, none, some "Scan already in progress".toList⟩ ∧
      (scanFolderPost store allPaths md td).2 = store) ∧
    (∀ (store : JobStore) (ids : List Nat) (md td : Str) (j : Job),
      ids ≠ [] →
      getActiveJob store.jobs = some j →
      (organizeJobsPost store ids md td).1 =
        ⟨409, some j.id, some "Organization already in progress".toList, none⟩ ∧
      (organizeJobsPost store ids md td).2 = store) := by
  constructor
  · intro store allPaths md td j hj
    unfold scanFolderPost
    rw [hj]
    exact ⟨rfl, rfl⟩
  · intro store ids md td j hne hj
    unfold organizeJobsPost
    rw [if_neg (by simpa using hne), hj]
    exact ⟨rfl, rfl⟩

/-- C4 witness: the single-flight theorem at concrete stores. -/
theorem singleflight_returns_active_job_witness :
    (scanFolderPost ⟨[⟨3, JobStatus.pending⟩], 4⟩ [] "".toList "".toList).1 =
      ⟨200, some 3, none, some "Scan already in progress".toList⟩ ∧
    (organizeJobsPost ⟨[⟨7, JobStatus.running⟩], 8⟩ [1] "".toList "".toList).1 =
      ⟨409, some 7, some "Organization already in progress".toList, none⟩ :=
  ⟨(singleflight_returns_active_job.1 ⟨[⟨3, JobStatus.pending⟩], 4⟩ [] "".toList
      "".toList ⟨3, JobStatus.pending⟩ (by decide)).1,
   (singleflight_returns_active_job.2 ⟨[⟨7, JobStatus.running⟩], 8⟩ [1] "".toList
      "".toList ⟨7, JobStatus.running⟩ (by decide) (by decide)).1⟩

/-- C8 (counterexample): in a real (non-dry-run) organize batch, the
per-item failure recorded for a missing source file is
`"Source file not found: <path>"`, which does not contain the claim's
quoted `"Source not found"`; the batch still continues (the second item is
moved). -/
theorem organize_missing_source_counterexample :
    let env : Nat → MoveEnv := fun _ => ⟨RenameOutcome.ok, none, [], false, false, false, []⟩
    let st : OrgState :=
      ⟨[⟨1, "x.mkv".toList, some "/in/x.mkv".toList, some "/dst/x.mkv".toList⟩,
        ⟨2, "y.mkv".toList, some "/in/y.mkv".toList, some "/dst/y.mkv".toList⟩],
       ⟨[("/in/y.mkv".toList, 9)]⟩, [], []⟩
    let final := organizeBatch env st [1, 2]
    final.failed = [(1, "Source file not found: /in/x.mkv".toList)] ∧
    final.organized = [2] ∧
    containsSub "Source file not found: /in/x.mkv".toList "Source not found".toList
      = false := by
  decide

theorem processId_appends (env : Nat → MoveEnv) (st : OrgState) (i : Nat) :
    ∃ org fl, (processId env st i).organized = st.organized ++ org ∧
      (processId env st i).failed = st.failed ++ fl ∧
      (processId env st i).itemsDb.length = st.itemsDb.length := by
  unfold processId
  cases lookupItem st.itemsDb i with
  | none =>
    refine ⟨[], [], ?_, ?_, ?_⟩ <;> simp
  | some item =>
    obtain ⟨iid, ifn, iop, idp⟩ := item
    cases iop with
    | none =>
      refine ⟨[], [(i, "Missing source or destination path".toList)], ?_, ?_, ?_⟩ <;> simp
    | some op =>
      cases idp with
      | none =>
        refine ⟨[], [(i, "Missing source or destination path".toList)], ?_, ?_, ?_⟩ <;> simp
      | some dp =>
        by_cases hs : (moveFileToDestination (env i) st.fs op dp).1.success = true
        · refine ⟨[i], [], ?_, ?_, ?_⟩ <;> simp [hs, updateItemPath]
        · refine ⟨[], [(i, (moveFileToDestination (env i) st.fs op dp).1.error.getD [])],
            ?_, ?_, ?_⟩ <;> simp [hs]

theorem organizeBatch_appends (env : Nat → MoveEnv) :
    ∀ (ids : List Nat) (st : OrgState), ∃ org fl,
      (organizeBatch env st ids).organized = st.organized ++ org ∧
      (organizeBatch env st ids).failed = st.failed ++ fl := by
  intro ids
  induction ids with
  | nil => intro st; exact ⟨[], [], by simp [organizeBatch], by simp [organizeBatch]⟩
  | cons i rest ih =>
    intro st
    obtain ⟨org1, fl1, ho1, hf1, -⟩ := processId_appends env st i
    obtain ⟨org2, fl2, ho2, hf2⟩ := ih (processId env st i)
    refine ⟨org1 ++ org2, fl1 ++ fl2, ?_, ?_⟩
    · show (organizeBatch env (processId env st i) rest).organized = _
      rw [ho2, ho1, List.append_assoc]
    · show (organizeBatch env (processId env st i) rest).failed = _
      rw [hf2, hf1, List.append_assoc]

/-- C8 (amended): an item whose source file is missing yields the
per-item failure `"Source file not found: <path>"` (in dry-run mode
`"Source not found: <path>"`), the filesystem and the other state are
untouched, and the batch continues with the remaining ids exactly as if
only the failure had been recorded; moreover a batch only ever appends to
the success/failure lists, never aborts. -/
theorem organize_batch_error_handling :
    (∀ (env : Nat → MoveEnv) (st : OrgState) (i : Nat) (item : OrgItem)
        (op dp : Str) (rest : List Nat),
      lookupItem st.itemsDb i = some item →
      item.originalPath = some op → item.destinationPath = some dp →
      st.fs.lookup op = none →
      organizeBatch env st (i :: rest) =
        organizeBatch env
          { st with failed := st.failed ++
              [(i, "Source file not found: ".toList ++ op)] } rest) ∧
    (∀ (writable : Nat → Option Str) (st : OrgState) (i : Nat) (item : OrgItem)
        (op dp : Str) (rest : List Nat),
      lookupItem st.itemsDb i = some item →
      item.originalPath = some op → item.destinationPath = some dp →
      st.fs.lookup op = none →
      organizeBatchDry writable st (i :: rest) =
        organizeBatchDry writable
          { st with failed := st.failed ++
              [(i, "Source not found: ".toList ++ op)] } rest) ∧
    (∀ (env : Nat → MoveEnv) (ids : List Nat) (st : OrgState), ∃ org fl,
      (organizeBatch env st ids).organized = st.organized ++ org ∧
      (organizeBatch env st ids).failed = st.failed ++ fl) := by
  refine ⟨fun env st i item op dp rest hit hop hdp hfs => ?_,
    fun writable st i item op dp rest hit hop hdp hfs => ?_,
    fun env ids st => organizeBatch_appends env ids st⟩
  · show organizeBatch env (processId env st i) rest = _
    congr 1
    unfold processId
    have he : moveFileToDestination (env i) st.fs op dp =
        (⟨false, some ("Source file not found: ".toList ++ op)⟩, st.fs) := by
      unfold moveFileToDestination
      rw [hfs]
    simp only [hit, hop, hdp, he]
    simp
  · show organizeBatchDry writable (processIdDry writable st i) rest = _
    congr 1
    unfold processIdDry
    simp only [hit, hop, hdp, hfs]

/-- C8 witness: the missing-source clauses applied to a concrete batch. -/
theorem organize_batch_error_handling_witness :
    organizeBatch (fun _ => ⟨RenameOutcome.ok, none, [], false, false, false, []⟩)
        ⟨[⟨1, "x.mkv".toList, some "/in/x.mkv".toList, some "/dst/x.mkv".toList⟩],
         ⟨[]⟩, [], []⟩ [1] =
      organizeBatch (fun _ => ⟨RenameOutcome.ok, none, [], false, false, false, []⟩)
        ⟨[⟨1, "x.mkv".toList, some "/in/x.mkv".toList, some "/dst/x.mkv".toList⟩],
         ⟨[]⟩, [],
         [] ++ [(1, "Source file not found: ".toList ++ "/in/x.mkv".toList)]⟩ [] ∧
    organizeBatchDry (fun _ => none)
        ⟨[⟨1, "x.mkv".toList, some "/in/x.mkv".toList, some "/dst/x.mkv".toList⟩],
         ⟨[]⟩, [], []⟩ [1] =
      organizeBatchDry (fun _ => none)
        ⟨[⟨1, "x.mkv".toList, some "/in/x.mkv".toList, some "/dst/x.mkv".toList⟩],
         ⟨[]⟩, [],
         [] ++ [(1, "Source not found: ".toList ++ "/in/x.mkv".toList)]⟩ [] :=
  ⟨organize_batch_error_handling.1 _ _ 1
      ⟨1, "x.mkv".toList, some "/in/x.mkv".toList, some "/dst/x.mkv".toList⟩
      "/in/x.mkv".toList "/dst/x.mkv".toList [] (by decide) rfl rfl (by decide),
   organize_batch_error_handling.2.1 _ _ 1
      ⟨1, "x.mkv".toList, some "/in/x.mkv".toList, some "/dst/x.mkv".toList⟩
      "/in/x.mkv".toList "/dst/x.mkv".toList [] (by decide) rfl rfl (by decide)⟩

end JMO
